import Mathlib

/-!
Verification of the notification-to-display pipeline of `gh_notifs.py`:
the normalized PR/notification model, the derived status classifications,
the referrer-token construction of the deep-link URL, and the reviewer /
status-glyph rendering logic of the two formatters.

Machine strings are `String`, bytes are `Nat` (with explicit `< 256`
bounds where byte arithmetic matters), fallible derivations return
`Except String`.
-/

namespace GhNotifs

/-- Lifecycle classification of a PR (`PRStatus` in the source). -/
inductive PRStatus where
  | DRAFT
  | OPEN
  | MERGED
  | CLOSED
deriving DecidableEq, Repr

/-- Merge-readiness classification of a PR (`PRMergeStatus` in the source). -/
inductive PRMergeStatus where
  | CLEAN
  | AUTO_MERGE
  | UNKNOWN
deriving DecidableEq, Repr

/-- The viewing user: id, login and org-qualified team slugs (`User`). -/
structure User where
  id : String
  login : String
  teams : List String
deriving DecidableEq, Repr

/-- Normalized pull request (`PR` NamedTuple in the source). -/
structure PR where
  title : String
  author : String
  state : String
  draft : Bool
  merged : Bool
  mergeable_state : String
  auto_merge : Bool
  owner : String
  repo : String
  base_ref : String
  base_default_branch : String
  number : Int
  html_url : String
  updated_at_str : String
  requested_reviewers : List String
  commits : Int
  files : Int
  additions : Int
  deletions : Int
deriving DecidableEq, Repr

/-- `PR.status`: derives the lifecycle classification, raising
`ValueError` (modelled as `Except.error`) on an unrecognised state. -/
def PR.status (pr : PR) : Except String PRStatus :=
  if pr.state = "open" then
    if pr.draft then Except.ok PRStatus.DRAFT else Except.ok PRStatus.OPEN
  else if pr.state = "closed" then
    if pr.merged then Except.ok PRStatus.MERGED else Except.ok PRStatus.CLOSED
  else
    Except.error ("Unrecognised state: " ++ pr.state)

/-- The set of mergeable states the source's `merge_status` maps to
`UNKNOWN` (the literal set on lines 92-98). -/
def fallbackMergeableStates : List String :=
  ["behind", "blocked", "dirty", "unknown", "unstable"]

/-- `PR.merge_status`: `clean` wins, then the auto-merge flag, then the
recognized fallback set, otherwise a `ValueError`. -/
def PR.merge_status (pr : PR) : Except String PRMergeStatus :=
  if pr.mergeable_state = "clean" then Except.ok PRMergeStatus.CLEAN
  else if pr.auto_merge then Except.ok PRMergeStatus.AUTO_MERGE
  else if pr.mergeable_state ∈ fallbackMergeableStates then Except.ok PRMergeStatus.UNKNOWN
  else Except.error ("Unrecognised mergeable state: " ++ pr.mergeable_state)

/-- A sample open draft PR used to instantiate hypotheses concretely. -/
def samplePR : PR :=
  { title := "t", author := "alice", state := "open", draft := true, merged := false
    mergeable_state := "clean", auto_merge := false
    owner := "org", repo := "repo", base_ref := "main", base_default_branch := "main"
    number := 1, html_url := "https://example.test/pr/1"
    updated_at_str := "2024-01-01T00:00:00Z", requested_reviewers := []
    commits := 1, files := 1, additions := 2, deletions := 3 }

/-- A PR whose mergeable state is outside the recognized set and whose
auto-merge flag is set. -/
def fooAutoPR : PR :=
  { samplePR with mergeable_state := "foo", auto_merge := true }

/-- A PR whose mergeable state is outside the recognized set and whose
auto-merge flag is clear. -/
def fooPlainPR : PR :=
  { samplePR with mergeable_state := "foo", auto_merge := false }

/-- A PR with a recognized non-clean mergeable state and auto-merge set. -/
def behindAutoPR : PR :=
  { samplePR with mergeable_state := "behind", auto_merge := true }

/-- One character of the standard base64 alphabet
(A-Z, a-z, 0-9, +, /), by sextet value. -/
def b64Char (n : Nat) : Char :=
  if n < 26 then Char.ofNat (65 + n)
  else if n < 52 then Char.ofNat (97 + (n - 26))
  else if n < 62 then Char.ofNat (48 + (n - 52))
  else if n = 62 then Char.ofNat 43
  else Char.ofNat 47

/-- Sextet value of a standard base64 alphabet character. -/
def b64DecChar (c : Char) : Option Nat :=
  if 65 ≤ c.toNat ∧ c.toNat ≤ 90 then some (c.toNat - 65)
  else if 97 ≤ c.toNat ∧ c.toNat ≤ 122 then some (c.toNat - 71)
  else if 48 ≤ c.toNat ∧ c.toNat ≤ 57 then some (c.toNat + 4)
  else if c.toNat = 43 then some 62
  else if c.toNat = 47 then some 63
  else none

/-- Standard base64 encoding with trailing padding
(`base64.standard_b64encode`); bytes in, characters out. -/
def b64EncodeBytes : List Nat → List Char
  | [] => []
  | [a] => [b64Char (a / 4), b64Char (a % 4 * 16), '=', '=']
  | [a, b] => [b64Char (a / 4), b64Char (a % 4 * 16 + b / 16), b64Char (b % 16 * 4), '=']
  | a :: b :: c :: rest =>
      b64Char (a / 4) :: b64Char (a % 4 * 16 + b / 16) :: b64Char (b % 16 * 4 + c / 64)
        :: b64Char (c % 64) :: b64EncodeBytes rest

/-- Python's `str.rstrip("=")` on a character list: drop every trailing
padding character. -/
def rstripEq (cs : List Char) : List Char :=
  (cs.reverse.dropWhile (fun c => c == '=')).reverse

/-- Re-extend a stripped base64 string with `=` padding to a multiple of
four characters. -/
def b64Pad (cs : List Char) : List Char :=
  cs ++ List.replicate ((4 - cs.length % 4) % 4) '='

/-- Decode base64 sextet groups (input already stripped of padding):
four symbols to three bytes, a trailing group of two or three symbols to
one or two bytes. -/
def b64DecodeGroups : List Char → Option (List Nat)
  | [] => some []
  | [_] => none
  | [a, b] => do
      let x ← b64DecChar a
      let y ← b64DecChar b
      some [x * 4 + y / 16]
  | [a, b, c] => do
      let x ← b64DecChar a
      let y ← b64DecChar b
      let z ← b64DecChar c
      some [x * 4 + y / 16, y % 16 * 16 + z / 4]
  | a :: b :: c :: d :: rest => do
      let x ← b64DecChar a
      let y ← b64DecChar b
      let z ← b64DecChar c
      let w ← b64DecChar d
      let tail ← b64DecodeGroups rest
      some ([x * 4 + y / 16, y % 16 * 16 + z / 4, z % 4 * 64 + w] ++ tail)

/-- Base64 decoding of a possibly padded string: drop trailing `=` and
decode the sextet groups. -/
def b64DecodeChars (cs : List Char) : Option (List Nat) :=
  b64DecodeGroups (rstripEq cs)

/-- UTF-8 encoding of one character, bytes as `Nat`. -/
def utf8CharBytes (c : Char) : List Nat :=
  if c.toNat < 128 then [c.toNat]
  else if c.toNat < 2048 then [192 + c.toNat / 64, 128 + c.toNat % 64]
  else if c.toNat < 65536 then
    [224 + c.toNat / 4096, 128 + c.toNat / 64 % 64, 128 + c.toNat % 64]
  else
    [240 + c.toNat / 262144, 128 + c.toNat / 4096 % 64,
      128 + c.toNat / 64 % 64, 128 + c.toNat % 64]

/-- UTF-8 encoding of a character list. -/
def utf8ListBytes : List Char → List Nat
  | [] => []
  | c :: cs => utf8CharBytes c ++ utf8ListBytes cs

/-- UTF-8 encoding of a string (Python's `str.encode()`). -/
def utf8Str (s : String) : List Nat := utf8ListBytes s.data

/-- The fixed 8-byte binary token head from the source:
`b"\x93\x00\xce\x00s3\xa2\xb2"`. -/
def referrerMagic : List Nat := [147, 0, 206, 0, 115, 51, 162, 178]

/-- The stripped standard-base64 token body (source lines 151-156):
encode the magic bytes plus the UTF-8 of `<id>:<userId>`, strip `=`. -/
def referrerToken (nid uid : String) : String :=
  String.mk (rstripEq (b64EncodeBytes (referrerMagic ++ utf8Str (nid ++ ":" ++ uid))))

/-- A notification: id, viewing user and the fetched PR. -/
structure Notification where
  id : String
  user : User
  pr : PR
deriving DecidableEq, Repr

/-- `Notification.url`: the PR's canonical web URL plus the referrer
query parameter carrying the `NT_`-prefixed token. -/
def Notification.url (n : Notification) : String :=
  n.pr.html_url ++ "?notification_referrer_id=NT_" ++ referrerToken n.id n.user.id

/-- The token construction worded as the spec describes it: take the
8-byte fixed binary head, append the UTF-8 encoding of
`<notificationId>:<userId>`, base64-encode with the standard alphabet,
strip trailing `=` padding and prefix the literal `NT_`.  Used to compare
the spec's construction with the source-derived `Notification.url`. -/
def specReferrerToken (nid uid : String) : String :=
  "NT_" ++ String.mk (rstripEq (b64EncodeBytes (referrerMagic ++ utf8Str (nid ++ ":" ++ uid))))

/-- The part of a character list after its first slash, when one exists. -/
def afterFirstSlash : List Char → Option (List Char)
  | [] => none
  | c :: cs => if c = '/' then some cs else afterFirstSlash cs

/-- Third component of Python's `str.partition("/")`: everything after
the first slash, or "" when the string has no slash. -/
def partitionAfterSlash (s : String) : String :=
  match afterFirstSlash s.data with
  | some r => String.mk r
  | none => ""

/-- Third component of Python's `str.rpartition("/")`: everything after
the last slash, or the whole string when it has no slash. -/
def rpartitionAfterSlash (s : String) : String :=
  String.mk (s.data.reverse.takeWhile (fun c => c != '/')).reverse

/-- Reviewer buckets used by both formatters, with the source's check
precedence: the viewing user first, then a team of theirs, else other. -/
inductive ReviewerBucket where
  | self
  | team
  | other
deriving DecidableEq, Repr

/-- Classification of one requested reviewer relative to the viewing
user (the if/elif/else cascade both formatters share). -/
def classifyReviewer (u : User) (reviewer : String) : ReviewerBucket :=
  if reviewer = u.login then ReviewerBucket.self
  else if reviewer ∈ u.teams then ReviewerBucket.team
  else ReviewerBucket.other

/-- One step of the console reviewer loop (source lines 200-207): the
rendered entries accumulated so far and the count of other reviewers. -/
def consoleReviewerStep (u : User) (acc : List String × Nat) (reviewer : String) :
    List String × Nat :=
  if reviewer = u.login then (acc.1 ++ ["\x1b[33m" ++ reviewer ++ "\x1b[39m"], acc.2)
  else if reviewer ∈ u.teams then (acc.1 ++ [partitionAfterSlash reviewer], acc.2)
  else (acc.1, acc.2 + 1)

/-- The console reviewer list (source lines 199-210): run the loop, then
append "N others" when any reviewer fell into the other bucket. -/
def consoleReviewers (u : User) (revs : List String) : List String :=
  let acc := revs.foldl (consoleReviewerStep u) ([], 0)
  if acc.2 ≠ 0 then acc.1 ++ [toString acc.2 ++ " others"] else acc.1

/-- The rendered console entry of a kept (self or own-team) reviewer. -/
def consoleEntry (u : User) (reviewer : String) : String :=
  if reviewer = u.login then "\x1b[33m" ++ reviewer ++ "\x1b[39m"
  else partitionAfterSlash reviewer

/-- The HTML list item of a reviewer that is the viewing user. -/
def htmlSelfItem (reviewer : String) : String :=
  "<li class=\"list-group-item list-group-item-warning\">" ++ reviewer ++ "</li>"

/-- The HTML list item of a reviewer that is a team of the viewing user:
only the slug after the first slash, no other attribute. -/
def htmlTeamItem (reviewer : String) : String :=
  "<li class=\"list-group-item\">" ++ partitionAfterSlash reviewer ++ "</li>"

/-- The aggregate HTML entry over the other-bucket reviewers. -/
def htmlOthersItem (others : List String) : String :=
  "<li class=\"list-group-item list-group-item-light\"><span title=\""
    ++ String.intercalate ", " others ++ "\">" ++ toString others.length
    ++ " others</span></li>"

/-- One step of the HTML reviewer loop (source lines 292-303): yielded
items so far, and the collected slugs of other reviewers. -/
def htmlReviewerStep (u : User) (acc : List String × List String) (reviewer : String) :
    List String × List String :=
  if reviewer = u.login then (acc.1 ++ [htmlSelfItem reviewer], acc.2)
  else if reviewer ∈ u.teams then (acc.1 ++ [htmlTeamItem reviewer], acc.2)
  else (acc.1, acc.2 ++ [rpartitionAfterSlash reviewer])

/-- The rendered HTML entry of a kept (self or own-team) reviewer. -/
def htmlEntry (u : User) (reviewer : String) : String :=
  if reviewer = u.login then htmlSelfItem reviewer else htmlTeamItem reviewer

/-- The HTML reviewer list items (source lines 290-309). -/
def htmlReviewerItems (u : User) (revs : List String) : List String :=
  let acc := revs.foldl (htmlReviewerStep u) ([], [])
  if acc.2 ≠ [] then acc.1 ++ [htmlOthersItem acc.2] else acc.1

/-- Console status glyph for a notification (source lines 173-187). -/
def consoleStatusGlyph (n : Notification) : Except String String := do
  let st ← n.pr.status
  if st = PRStatus.OPEN then do
    let ms ← n.pr.merge_status
    if ms = PRMergeStatus.CLEAN then pure "\x1b[92m\x1b[0m "
    else if ms = PRMergeStatus.AUTO_MERGE then pure "⏩"
    else pure ""
  else if st = PRStatus.DRAFT then pure "\x1b[39;2m"
  else if st = PRStatus.MERGED then pure "\x1b[35m[M]\x1b[39;2m"
  else if st = PRStatus.CLOSED then pure "\x1b[31m[C]\x1b[39;2m"
  else Except.error "unhandled status"

/-- HTML check icon (PR open and clean). -/
def htmlCheckIcon : String :=
  "<i class=\"bi bi-check-circle-fill text-success fs-3 p-2\" style=\"float: right;\" title=\"has been approved\"></i>"

/-- HTML fast-forward icon (PR open with auto-merge enabled). -/
def htmlFastForwardIcon : String :=
  "<i class=\"bi bi-fast-forward-circle fs-3 p-2\" style=\"float: right; color: #6f42c1;\" title=\"auto-merge enabled\"></i>"

/-- HTML pencil icon (draft PR). -/
def htmlDraftIcon : String :=
  "<i class=\"bi bi-pencil text-secondary fs-3 p-2\" style=\"float: right;\" title=\"draft\"></i>"

/-- HTML cross icon (closed PR). -/
def htmlClosedIcon : String :=
  "<i class=\"bi bi-x-circle text-danger fs-3 p-2\" style=\"float: right;\" title=\"closed\"></i>"

/-- HTML merge icon (merged PR). -/
def htmlMergedIcon : String :=
  "<i class=\"bi bi-sign-merge-right fs-3 p-2\" style=\"float: right; color: #6f42c1;\" title=\"merged\"></i>"

/-- HTML person icon (the viewing user authored the PR). -/
def htmlAuthorIcon : String :=
  "<i class=\"bi bi-person-circle text-warning fs-3 p-2\" style=\"float: right;\" title=\"i am the author\"></i>"

/-- The HTML icon list of a notification (source lines 243-276): status
icons first - two independent checks when the PR is open - then the
author icon. -/
def htmlIcons (n : Notification) : Except String (List String) := do
  let st ← n.pr.status
  let statusIcons ←
    if st = PRStatus.OPEN then do
      let ms ← n.pr.merge_status
      pure ((if ms = PRMergeStatus.CLEAN then [htmlCheckIcon] else [])
        ++ (if ms = PRMergeStatus.AUTO_MERGE then [htmlFastForwardIcon] else []))
    else if st = PRStatus.DRAFT then pure [htmlDraftIcon]
    else if st = PRStatus.CLOSED then pure [htmlClosedIcon]
    else if st = PRStatus.MERGED then pure [htmlMergedIcon]
    else pure []
  pure (statusIcons ++ (if n.pr.author = n.user.login then [htmlAuthorIcon] else []))

/-- A JSON value, as handed to `PR.from_json`. -/
inductive JVal where
  | null
  | boolean (b : Bool)
  | num (n : Int)
  | str (s : String)
  | arr (elems : List JVal)
  | obj (fields : List (String × JVal))

/-- Key lookup in an object's field list: Python's `d[k]`, raising
`KeyError` when absent. -/
def lookupField : List (String × JVal) → String → Except String JVal
  | [], k => Except.error ("KeyError: " ++ k)
  | (k0, v) :: rest, k => if k0 = k then Except.ok v else lookupField rest k

/-- `d[k]` on a JSON value: only objects support key lookup. -/
def JVal.lookup : JVal → String → Except String JVal
  | JVal.obj fields, k => lookupField fields k
  | _, k => Except.error ("TypeError: " ++ k)

/-- Python truthiness (`bool(v)`) of a JSON value. -/
def JVal.truthy : JVal → Bool
  | JVal.null => false
  | JVal.boolean b => b
  | JVal.num n => n != 0
  | JVal.str s => s != ""
  | JVal.arr l => !l.isEmpty
  | JVal.obj f => !f.isEmpty

/-- Read a JSON string. -/
def JVal.getStr : JVal → Except String String
  | JVal.str s => Except.ok s
  | _ => Except.error "TypeError: expected string"

/-- Read a JSON boolean. -/
def JVal.getBool : JVal → Except String Bool
  | JVal.boolean b => Except.ok b
  | _ => Except.error "TypeError: expected boolean"

/-- Read a JSON number. -/
def JVal.getInt : JVal → Except String Int
  | JVal.num n => Except.ok n
  | _ => Except.error "TypeError: expected number"

/-- Read a JSON array. -/
def JVal.getArr : JVal → Except String (List JVal)
  | JVal.arr l => Except.ok l
  | _ => Except.error "TypeError: expected array"

/-- The generator `reviewer["login"] for reviewer in ...` (source line
134): each requested reviewer's login, in source order. -/
def extractLogins : List JVal → Except String (List String)
  | [] => Except.ok []
  | r :: rest => do
      let l ← (← r.lookup "login").getStr
      let ls ← extractLogins rest
      Except.ok (l :: ls)

/-- The generator over `team["slug"]` (source line 135): each requested
team's slug, in source order. -/
def extractSlugs : List JVal → Except String (List String)
  | [] => Except.ok []
  | t :: rest => do
      let s ← (← t.lookup "slug").getStr
      let ss ← extractSlugs rest
      Except.ok (s :: ss)

/-- `PR.from_json` (source lines 115-141): normalize a raw payload,
deriving `requested_reviewers` as individual logins followed by teams
rendered as owner/slug, and `auto_merge` through `bool(...)`. -/
def PR.from_json (data : JVal) : Except String PR := do
  let base ← data.lookup "base"
  let brepo ← base.lookup "repo"
  let bowner ← brepo.lookup "owner"
  let owner ← (← bowner.lookup "login").getStr
  let title ← (← data.lookup "title").getStr
  let author ← (← (← data.lookup "user").lookup "login").getStr
  let state ← (← data.lookup "state").getStr
  let draft ← (← data.lookup "draft").getBool
  let merged ← (← data.lookup "merged").getBool
  let mergeable_state ← (← data.lookup "mergeable_state").getStr
  let auto_merge_val ← data.lookup "auto_merge"
  let repoName ← (← brepo.lookup "name").getStr
  let base_ref ← (← base.lookup "ref").getStr
  let base_default_branch ← (← brepo.lookup "default_branch").getStr
  let number ← (← data.lookup "number").getInt
  let html_url ← (← data.lookup "html_url").getStr
  let updated_at_str ← (← data.lookup "updated_at").getStr
  let rrs ← (← data.lookup "requested_reviewers").getArr
  let logins ← extractLogins rrs
  let rts ← (← data.lookup "requested_teams").getArr
  let slugs ← extractSlugs rts
  let commits ← (← data.lookup "commits").getInt
  let files ← (← data.lookup "changed_files").getInt
  let additions ← (← data.lookup "additions").getInt
  let deletions ← (← data.lookup "deletions").getInt
  pure { title := title, author := author, state := state, draft := draft, merged := merged
         mergeable_state := mergeable_state, auto_merge := auto_merge_val.truthy
         owner := owner, repo := repoName, base_ref := base_ref
         base_default_branch := base_default_branch, number := number, html_url := html_url
         updated_at_str := updated_at_str
         requested_reviewers := logins ++ slugs.map (fun s => owner ++ "/" ++ s)
         commits := commits, files := files, additions := additions, deletions := deletions }

/-- The scalar fields of a well-formed PR payload. -/
structure Payload where
  title : String
  author : String
  state : String
  draft : Bool
  merged : Bool
  ms : String
  owner : String
  repoName : String
  baseRef : String
  defBranch : String
  number : Int
  url : String
  updated : String
  logins : List String
  slugs : List String
  commits : Int
  files : Int
  adds : Int
  dels : Int

/-- A well-formed PR payload over the given field values; the
`auto_merge` key is present exactly when `am` is `some`. -/
def mkPayload (p : Payload) (am : Option JVal) : JVal :=
  JVal.obj
    ([("title", JVal.str p.title),
      ("user", JVal.obj [("login", JVal.str p.author)]),
      ("state", JVal.str p.state),
      ("draft", JVal.boolean p.draft),
      ("merged", JVal.boolean p.merged),
      ("mergeable_state", JVal.str p.ms)]
    ++ (match am with
        | some v => [("auto_merge", v)]
        | none => [])
    ++ [("base", JVal.obj
          [("ref", JVal.str p.baseRef),
           ("repo", JVal.obj
              [("owner", JVal.obj [("login", JVal.str p.owner)]),
               ("name", JVal.str p.repoName),
               ("default_branch", JVal.str p.defBranch)])]),
        ("number", JVal.num p.number),
        ("html_url", JVal.str p.url),
        ("updated_at", JVal.str p.updated),
        ("requested_reviewers", JVal.arr (p.logins.map (fun l => JVal.obj [("login", JVal.str l)]))),
        ("requested_teams", JVal.arr (p.slugs.map (fun s => JVal.obj [("slug", JVal.str s)]))),
        ("commits", JVal.num p.commits),
        ("changed_files", JVal.num p.files),
        ("additions", JVal.num p.adds),
        ("deletions", JVal.num p.dels)])

/-- The PR a well-formed payload normalizes to. -/
def payloadPR (p : Payload) (am : JVal) : PR :=
  { title := p.title, author := p.author, state := p.state, draft := p.draft
    merged := p.merged, mergeable_state := p.ms, auto_merge := am.truthy
    owner := p.owner, repo := p.repoName, base_ref := p.baseRef
    base_default_branch := p.defBranch, number := p.number, html_url := p.url
    updated_at_str := p.updated
    requested_reviewers := p.logins ++ p.slugs.map (fun s => p.owner ++ "/" ++ s)
    commits := p.commits, files := p.files, additions := p.adds, deletions := p.dels }

/-- A sample payload used to instantiate hypotheses concretely. -/
def samplePayload : Payload :=
  { title := "t", author := "alice", state := "open", draft := false, merged := false
    ms := "clean", owner := "org", repoName := "repo", baseRef := "main"
    defBranch := "main", number := 7, url := "https://example.test/pr/7"
    updated := "2024-01-01T00:00:00Z", logins := ["bob", "carol"], slugs := ["team"]
    commits := 1, files := 2, adds := 3, dels := 4 }

/-- A sample notification: open non-draft clean PR viewed by "me". -/
def sampleNotification : Notification :=
  { id := "1", user := { id := "456", login := "me", teams := [] }
    pr := { samplePR with draft := false } }

-- ------------------------------------------------------------------
-- Theorems
-- ------------------------------------------------------------------

/-- C1: the derived status is a total deterministic function of
(state, draft, merged): `open` yields DRAFT/OPEN by the draft flag,
`closed` yields MERGED/CLOSED by the merged flag, and any other state
fails with the unrecognized-state error, never returning a status. -/
theorem c1_status_classification (pr : PR) :
    (pr.state = "open" →
      pr.status = Except.ok (if pr.draft then PRStatus.DRAFT else PRStatus.OPEN))
    ∧ (pr.state = "closed" →
      pr.status = Except.ok (if pr.merged then PRStatus.MERGED else PRStatus.CLOSED))
    ∧ (pr.state ≠ "open" → pr.state ≠ "closed" →
      pr.status = Except.error ("Unrecognised state: " ++ pr.state)
      ∧ ∀ s : PRStatus, pr.status ≠ Except.ok s) := by
  unfold PR.status
  by_cases h1 : pr.state = "open" <;> by_cases h2 : pr.state = "closed" <;>
    simp [h1, h2] <;> cases pr.draft <;> cases pr.merged <;> simp

/-- Witness for C1 at a concrete open draft PR. -/
theorem c1_status_classification_wit :
    samplePR.state = "open" ∧ samplePR.status = Except.ok PRStatus.DRAFT := by
  refine ⟨rfl, ?_⟩
  have h := (c1_status_classification samplePR).1 rfl
  simpa using h

/-- C2 counterexample: mergeable_state "foo" lies outside the known set,
yet with the auto-merge flag set the derivation returns AUTO_MERGE
instead of failing. -/
theorem c2_cex_auto_merge_bypasses_check :
    fooAutoPR.mergeable_state ∉ ("clean" :: fallbackMergeableStates)
    ∧ fooAutoPR.auto_merge = true
    ∧ fooAutoPR.merge_status = Except.ok PRMergeStatus.AUTO_MERGE := by
  refine ⟨by decide, rfl, rfl⟩

/-- C2 (amended): for a PR whose mergeable_state is outside the known set
and whose auto-merge flag is NOT set, the derivation fails with the
unrecognized-merge-state error; with the flag set it returns AUTO_MERGE. -/
theorem c2_unknown_merge_state_error (pr : PR)
    (h1 : pr.mergeable_state ∉ ("clean" :: fallbackMergeableStates)) :
    (pr.auto_merge = false →
      pr.merge_status
        = Except.error ("Unrecognised mergeable state: " ++ pr.mergeable_state))
    ∧ (pr.auto_merge = true → pr.merge_status = Except.ok PRMergeStatus.AUTO_MERGE) := by
  simp only [List.mem_cons, not_or] at h1
  unfold PR.merge_status
  constructor
  · intro h2
    simp [h1.1, h1.2, h2]
  · intro h2
    simp [h1.1, h2]

/-- Witness for C2 at a concrete PR with state "foo", flag clear. -/
theorem c2_unknown_merge_state_error_wit :
    fooPlainPR.mergeable_state ∉ ("clean" :: fallbackMergeableStates)
    ∧ fooPlainPR.merge_status = Except.error ("Unrecognised mergeable state: foo") := by
  refine ⟨by decide, ?_⟩
  exact (c2_unknown_merge_state_error fooPlainPR (by decide)).1 rfl

/-- C3: on the known set, merge status is CLEAN exactly for "clean",
AUTO_MERGE exactly when the flag is set and the state is not "clean",
and UNKNOWN in every remaining case. -/
theorem c3_known_merge_status (pr : PR)
    (h : pr.mergeable_state ∈ ("clean" :: fallbackMergeableStates)) :
    pr.merge_status
      = Except.ok (if pr.mergeable_state = "clean" then PRMergeStatus.CLEAN
          else if pr.auto_merge then PRMergeStatus.AUTO_MERGE else PRMergeStatus.UNKNOWN)
    ∧ (pr.merge_status = Except.ok PRMergeStatus.CLEAN ↔ pr.mergeable_state = "clean")
    ∧ (pr.merge_status = Except.ok PRMergeStatus.AUTO_MERGE
        ↔ pr.auto_merge = true ∧ pr.mergeable_state ≠ "clean")
    ∧ (pr.merge_status = Except.ok PRMergeStatus.UNKNOWN
        ↔ pr.auto_merge = false ∧ pr.mergeable_state ≠ "clean") := by
  unfold PR.merge_status
  rcases List.mem_cons.mp h with hc | hf
  · simp [hc]
  · by_cases hc : pr.mergeable_state = "clean"
    · simp [hc]
    · cases ha : pr.auto_merge <;> simp [hc, hf, ha]

/-- Witness for C3 at a concrete PR with state "behind" and auto-merge set. -/
theorem c3_known_merge_status_wit :
    behindAutoPR.mergeable_state ∈ ("clean" :: fallbackMergeableStates)
    ∧ behindAutoPR.merge_status = Except.ok PRMergeStatus.AUTO_MERGE := by
  refine ⟨by decide, ?_⟩
  have h := (c3_known_merge_status behindAutoPR (by decide)).2.2.1
  exact h.mpr ⟨rfl, by decide⟩

/-- C4: every notification's deep-link URL is the PR's web URL followed
by the referrer query parameter whose value is the spec's token
construction (fixed 8-byte head, UTF-8 of id:userId, stripped standard
base64, "NT_" prefix); and for id "123", user id "456", re-padding and
decoding the token body yields exactly the head bytes followed by the
UTF-8 bytes of "123:456". -/
theorem c4_deep_link_url (n : Notification) :
    n.url = n.pr.html_url ++ "?notification_referrer_id=" ++ specReferrerToken n.id n.user.id
    ∧ b64DecodeChars (b64Pad (referrerToken "123" "456").data)
        = some (referrerMagic ++ utf8Str "123:456") := by
  constructor
  · have hd : ∀ s t : String, s.data = t.data → s = t := fun s t h => by
      cases s; cases t; simp_all
    apply hd
    unfold Notification.url specReferrerToken referrerToken
    simp only [String.data_append, List.append_assoc]
    rfl
  · decide

theorem string_eq_of_data_eq (s t : String) (h : s.data = t.data) : s = t := by
  cases s; cases t; simp_all

theorem char_toNat_lt_uniCount (c : Char) : c.toNat < 1114112 := by
  have h := c.valid
  unfold UInt32.isValidChar Nat.isValidChar at h
  have : c.toNat = c.val.toNat := rfl
  rcases h with h | h <;> omega

theorem char_toNat_injective : Function.Injective Char.toNat := by
  intro c d h
  apply Char.eq_of_val_eq
  exact UInt32.ext h

theorem b64DecChar_b64Char : ∀ n, n < 64 → b64DecChar (b64Char n) = some n := by decide

theorem b64Char_ne_pad : ∀ n, n < 64 → (b64Char n == '=') = false := by decide

theorem dropWhile_append_ne (p : Char → Bool) (a b : List Char)
    (h : a.dropWhile p ≠ []) : (a ++ b).dropWhile p = a.dropWhile p ++ b := by
  induction a with
  | nil => simp at h
  | cons x xs ih =>
    by_cases hx : p x
    · simp only [List.dropWhile_cons, hx, if_true, List.cons_append] at h ⊢
      exact ih h
    · simp [List.dropWhile_cons, hx]

theorem rstripEq_append (l1 l2 : List Char) (h : rstripEq l2 ≠ []) :
    rstripEq (l1 ++ l2) = l1 ++ rstripEq l2 := by
  unfold rstripEq at h ⊢
  have h2 : (l2.reverse.dropWhile (fun c => c == '=')) ≠ [] := by
    intro h0
    rw [h0] at h
    simp at h
  rw [List.reverse_append, dropWhile_append_ne _ _ _ h2, List.reverse_append,
    List.reverse_reverse]

theorem rstrip_pad2 (w x : Char) (hx : (x == '=') = false) :
    rstripEq [w, x, '=', '='] = [w, x] := by
  simp [rstripEq, List.dropWhile_cons, hx]

theorem rstrip_pad1 (w x y : Char) (hy : (y == '=') = false) :
    rstripEq [w, x, y, '='] = [w, x, y] := by
  simp [rstripEq, List.dropWhile_cons, hy]

theorem rstrip_pad0 (w x y z : Char) (hz : (z == '=') = false) :
    rstripEq [w, x, y, z] = [w, x, y, z] := by
  simp [rstripEq, List.dropWhile_cons, hz]

theorem b64_strip_decode (bs : List Nat) (h : ∀ b ∈ bs, b < 256) :
    b64DecodeGroups (rstripEq (b64EncodeBytes bs)) = some bs := by
  induction bs using b64EncodeBytes.induct with
  | case1 => rfl
  | case2 a =>
    have ha : a < 256 := h a (by simp)
    have h1 : a / 4 < 64 := by omega
    have h2 : a % 4 * 16 < 64 := by omega
    rw [b64EncodeBytes, rstrip_pad2 _ _ (b64Char_ne_pad _ h2)]
    simp [b64DecodeGroups, b64DecChar_b64Char _ h1, b64DecChar_b64Char _ h2]
    omega
  | case3 a b =>
    have ha : a < 256 := h a (by simp)
    have hb : b < 256 := h b (by simp)
    have h1 : a / 4 < 64 := by omega
    have h2 : a % 4 * 16 + b / 16 < 64 := by omega
    have h3 : b % 16 * 4 < 64 := by omega
    rw [b64EncodeBytes, rstrip_pad1 _ _ _ (b64Char_ne_pad _ h3)]
    simp [b64DecodeGroups, b64DecChar_b64Char _ h1, b64DecChar_b64Char _ h2,
      b64DecChar_b64Char _ h3]
    constructor <;> omega
  | case4 a b c rest ih =>
    have ha : a < 256 := h a (by simp)
    have hb : b < 256 := h b (by simp)
    have hc : c < 256 := h c (by simp)
    have h1 : a / 4 < 64 := by omega
    have h2 : a % 4 * 16 + b / 16 < 64 := by omega
    have h3 : b % 16 * 4 + c / 64 < 64 := by omega
    have h4 : c % 64 < 64 := by omega
    have hrest : ∀ x ∈ rest, x < 256 := by
      intro x hx
      exact h x (by simp [hx])
    have ihr := ih hrest
    rw [b64EncodeBytes]
    cases rest with
    | nil =>
      rw [show (b64Char (a / 4) :: b64Char (a % 4 * 16 + b / 16)
            :: b64Char (b % 16 * 4 + c / 64) :: b64Char (c % 64) :: b64EncodeBytes [])
          = [b64Char (a / 4), b64Char (a % 4 * 16 + b / 16),
              b64Char (b % 16 * 4 + c / 64), b64Char (c % 64)] from rfl,
        rstrip_pad0 _ _ _ _ (b64Char_ne_pad _ h4)]
      simp [b64DecodeGroups, b64DecChar_b64Char _ h1, b64DecChar_b64Char _ h2,
        b64DecChar_b64Char _ h3, b64DecChar_b64Char _ h4]
      refine ⟨by omega, by omega, by omega⟩
    | cons r rs =>
      have hne : rstripEq (b64EncodeBytes (r :: rs)) ≠ [] := by
        intro h0
        rw [h0] at ihr
        simp [b64DecodeGroups] at ihr
      rw [show (b64Char (a / 4) :: b64Char (a % 4 * 16 + b / 16)
            :: b64Char (b % 16 * 4 + c / 64) :: b64Char (c % 64)
            :: b64EncodeBytes (r :: rs))
          = [b64Char (a / 4), b64Char (a % 4 * 16 + b / 16),
              b64Char (b % 16 * 4 + c / 64), b64Char (c % 64)]
            ++ b64EncodeBytes (r :: rs) from rfl,
        rstripEq_append _ _ hne]
      simp only [List.cons_append, List.nil_append, b64DecodeGroups,
        b64DecChar_b64Char _ h1, b64DecChar_b64Char _ h2, b64DecChar_b64Char _ h3,
        b64DecChar_b64Char _ h4, List.append_eq, ihr, Option.bind_eq_bind,
        Option.some_bind, Option.bind_some]
      have e1 : a / 4 * 4 + (a % 4 * 16 + b / 16) / 16 = a := by omega
      have e2 : (a % 4 * 16 + b / 16) % 16 * 16 + (b % 16 * 4 + c / 64) / 4 = b := by omega
      have e3 : (b % 16 * 4 + c / 64) % 4 * 64 + c % 64 = c := by omega
      rw [e1, e2, e3]

theorem utf8CharBytes_lt (c : Char) : ∀ b ∈ utf8CharBytes c, b < 256 := by
  have hlt := char_toNat_lt_uniCount c
  intro b hb
  unfold utf8CharBytes at hb
  split_ifs at hb with h1 h2 h3
  · simp at hb
    omega
  · simp only [List.mem_cons, List.mem_singleton, List.not_mem_nil, or_false] at hb
    rcases hb with rfl | rfl <;> omega
  · simp only [List.mem_cons, List.mem_singleton, List.not_mem_nil, or_false] at hb
    rcases hb with rfl | rfl | rfl <;> omega
  · simp only [List.mem_cons, List.mem_singleton, List.not_mem_nil, or_false] at hb
    rcases hb with rfl | rfl | rfl | rfl <;> omega

theorem utf8ListBytes_lt (l : List Char) : ∀ b ∈ utf8ListBytes l, b < 256 := by
  induction l with
  | nil => simp [utf8ListBytes]
  | cons c cs ih =>
    intro b hb
    rcases List.mem_append.mp (by simpa [utf8ListBytes] using hb) with h | h
    · exact utf8CharBytes_lt c b h
    · exact ih b h

theorem utf8CharBytes_ne_nil (c : Char) : utf8CharBytes c ≠ [] := by
  unfold utf8CharBytes
  split_ifs <;> simp

theorem utf8_prefix_free (c d : Char) (A B : List Nat)
    (h : utf8CharBytes c ++ A = utf8CharBytes d ++ B) : c = d ∧ A = B := by
  have hc := char_toNat_lt_uniCount c
  have hd := char_toNat_lt_uniCount d
  unfold utf8CharBytes at h
  split_ifs at h <;>
    simp only [List.cons_append, List.nil_append, List.cons.injEq] at h <;>
    first
      | exact ⟨char_toNat_injective (by omega), h.2⟩
      | exact ⟨char_toNat_injective (by omega), h.2.2⟩
      | exact ⟨char_toNat_injective (by omega), h.2.2.2⟩
      | exact ⟨char_toNat_injective (by omega), h.2.2.2.2⟩
      | exact absurd h.1 (by omega)

theorem utf8ListBytes_inj : ∀ l1 l2 : List Char,
    utf8ListBytes l1 = utf8ListBytes l2 → l1 = l2 := by
  intro l1
  induction l1 with
  | nil =>
    intro l2 h
    cases l2 with
    | nil => rfl
    | cons d ds =>
      exfalso
      rw [show utf8ListBytes ([] : List Char) = [] from rfl,
        show utf8ListBytes (d :: ds) = utf8CharBytes d ++ utf8ListBytes ds from rfl] at h
      exact utf8CharBytes_ne_nil d (List.append_eq_nil.mp h.symm).1
  | cons c cs ih =>
    intro l2 h
    cases l2 with
    | nil =>
      exfalso
      rw [show utf8ListBytes ([] : List Char) = [] from rfl,
        show utf8ListBytes (c :: cs) = utf8CharBytes c ++ utf8ListBytes cs from rfl] at h
      exact utf8CharBytes_ne_nil c (List.append_eq_nil.mp h).1
    | cons d ds =>
      rw [show utf8ListBytes (c :: cs) = utf8CharBytes c ++ utf8ListBytes cs from rfl,
        show utf8ListBytes (d :: ds) = utf8CharBytes d ++ utf8ListBytes ds from rfl] at h
      obtain ⟨hcd, htail⟩ := utf8_prefix_free c d _ _ h
      rw [hcd, ih ds htail]

theorem colon_append_inj (l1 : List Char) : ∀ l2 r1 r2 : List Char,
    ':' ∉ l1 → ':' ∉ l2 → l1 ++ ':' :: r1 = l2 ++ ':' :: r2 → l1 = l2 ∧ r1 = r2 := by
  induction l1 with
  | nil =>
    intro l2 r1 r2 _ h2 h
    cases l2 with
    | nil => simpa using h
    | cons d ds =>
      simp only [List.nil_append, List.cons_append, List.cons.injEq] at h
      have hd : d = ':' := h.1.symm
      subst hd
      exact absurd (List.mem_cons_self _ _) h2
  | cons x xs ih =>
    intro l2 r1 r2 h1 h2 h
    cases l2 with
    | nil =>
      simp only [List.nil_append, List.cons_append, List.cons.injEq] at h
      have hx : x = ':' := h.1
      subst hx
      exact absurd (List.mem_cons_self _ _) h1
    | cons d ds =>
      simp only [List.cons_append, List.cons.injEq] at h
      obtain ⟨hxd, htail⟩ := h
      have h1' : ':' ∉ xs := fun hm => h1 (List.mem_cons_of_mem _ hm)
      have h2' : ':' ∉ ds := fun hm => h2 (List.mem_cons_of_mem _ hm)
      obtain ⟨he, hr⟩ := ih ds r1 r2 h1' h2' htail
      exact ⟨by rw [hxd, he], hr⟩

theorem referrerBytes_lt (s : String) : ∀ x ∈ referrerMagic ++ utf8Str s, x < 256 := by
  intro x hx
  rcases List.mem_append.mp hx with h | h
  · unfold referrerMagic at h
    simp only [List.mem_cons, List.mem_singleton, List.not_mem_nil, or_false] at h
    rcases h with rfl | rfl | rfl | rfl | rfl | rfl | rfl | rfl <;> omega
  · exact utf8ListBytes_lt s.data x h

/-- C5 counterexample: the token is not injective over arbitrary string
pairs, because the id and user id are joined with ":": the pairs
("a:b", "c") and ("a", "b:c") differ yet produce the same token. -/
theorem c5_cex_colon_collision :
    referrerToken "a:b" "c" = referrerToken "a" "b:c"
    ∧ ¬ (("a:b" : String) = "a" ∧ ("c" : String) = "b:c") := by
  exact ⟨rfl, by decide⟩

/-- C5 (amended): the referrer token is a deterministic function of
(notificationId, userId), and it is injective on every pair of inputs
whose notification ids contain no ":" character (the separator the
construction uses); without that restriction injectivity fails. -/
theorem c5_token_deterministic_injective :
    (∀ n1 n2 : Notification, n1.id = n2.id → n1.user.id = n2.user.id →
      referrerToken n1.id n1.user.id = referrerToken n2.id n2.user.id)
    ∧ (∀ id1 uid1 id2 uid2 : String, ':' ∉ id1.data → ':' ∉ id2.data →
      referrerToken id1 uid1 = referrerToken id2 uid2 → id1 = id2 ∧ uid1 = uid2) := by
  constructor
  · intro n1 n2 h1 h2
    rw [h1, h2]
  · intro id1 uid1 id2 uid2 hc1 hc2 h
    unfold referrerToken at h
    have hdata : rstripEq (b64EncodeBytes (referrerMagic ++ utf8Str (id1 ++ ":" ++ uid1)))
        = rstripEq (b64EncodeBytes (referrerMagic ++ utf8Str (id2 ++ ":" ++ uid2))) :=
      congrArg String.data h
    have d1 := b64_strip_decode _ (referrerBytes_lt (id1 ++ ":" ++ uid1))
    have d2 := b64_strip_decode _ (referrerBytes_lt (id2 ++ ":" ++ uid2))
    rw [hdata, d2] at d1
    have hB : referrerMagic ++ utf8Str (id2 ++ ":" ++ uid2)
        = referrerMagic ++ utf8Str (id1 ++ ":" ++ uid1) := Option.some.inj d1
    have hu : utf8Str (id1 ++ ":" ++ uid1) = utf8Str (id2 ++ ":" ++ uid2) :=
      (List.append_cancel_left hB).symm
    have hdataeq : (id1 ++ ":" ++ uid1).data = (id2 ++ ":" ++ uid2).data :=
      utf8ListBytes_inj _ _ hu
    rw [String.data_append, String.data_append, String.data_append,
      String.data_append] at hdataeq
    have hshape : id1.data ++ ':' :: uid1.data = id2.data ++ ':' :: uid2.data := by
      simpa [List.append_assoc] using hdataeq
    obtain ⟨hid, huid⟩ := colon_append_inj id1.data id2.data uid1.data uid2.data hc1 hc2 hshape
    exact ⟨string_eq_of_data_eq _ _ hid, string_eq_of_data_eq _ _ huid⟩

/-- Witness for C5 at the concrete colon-free pair ("7", "42"). -/
theorem c5_token_deterministic_injective_wit :
    ':' ∉ ("7" : String).data ∧ ("7" : String) = "7" ∧ ("42" : String) = "42" := by
  refine ⟨by decide, ?_⟩
  have h := c5_token_deterministic_injective.2 "7" "42" "7" "42" (by decide) (by decide) rfl
  exact ⟨h.1, h.2⟩

theorem consoleReviewers_foldl (u : User) (revs : List String) : ∀ (acc : List String) (n : Nat),
    revs.foldl (consoleReviewerStep u) (acc, n)
      = (acc ++ (revs.filter
            (fun r => classifyReviewer u r != ReviewerBucket.other)).map (consoleEntry u),
         n + (revs.filter (fun r => classifyReviewer u r == ReviewerBucket.other)).length) := by
  induction revs with
  | nil => intro acc n; simp
  | cons r rs ih =>
    intro acc n
    rw [List.foldl_cons]
    by_cases h1 : r = u.login
    · have hstep : consoleReviewerStep u (acc, n) r
          = (acc ++ ["\x1b[33m" ++ r ++ "\x1b[39m"], n) := by
        simp [consoleReviewerStep, h1]
      have hc : classifyReviewer u r = ReviewerBucket.self := by
        simp [classifyReviewer, h1]
      have hent : consoleEntry u r = "\x1b[33m" ++ r ++ "\x1b[39m" := by
        simp [consoleEntry, h1]
      rw [hstep, ih]
      simp [List.filter_cons, hc, hent]
    · by_cases h2 : r ∈ u.teams
      · have hstep : consoleReviewerStep u (acc, n) r
            = (acc ++ [partitionAfterSlash r], n) := by
          simp [consoleReviewerStep, h1, h2]
        have hc : classifyReviewer u r = ReviewerBucket.team := by
          simp [classifyReviewer, h1, h2]
        rw [hstep, ih]
        simp [List.filter_cons, hc, consoleEntry, h1]
      · have hstep : consoleReviewerStep u (acc, n) r = (acc, n + 1) := by
          simp [consoleReviewerStep, h1, h2]
        have hc : classifyReviewer u r = ReviewerBucket.other := by
          simp [classifyReviewer, h1, h2]
        rw [hstep, ih]
        simp [List.filter_cons, hc]
        omega

theorem htmlReviewerItems_foldl (u : User) (revs : List String) :
    ∀ (acc os : List String),
    revs.foldl (htmlReviewerStep u) (acc, os)
      = (acc ++ (revs.filter
            (fun r => classifyReviewer u r != ReviewerBucket.other)).map (htmlEntry u),
         os ++ (revs.filter
            (fun r => classifyReviewer u r == ReviewerBucket.other)).map rpartitionAfterSlash) := by
  induction revs with
  | nil => intro acc os; simp
  | cons r rs ih =>
    intro acc os
    rw [List.foldl_cons]
    by_cases h1 : r = u.login
    · have hstep : htmlReviewerStep u (acc, os) r = (acc ++ [htmlSelfItem r], os) := by
        simp [htmlReviewerStep, h1]
      have hc : classifyReviewer u r = ReviewerBucket.self := by
        simp [classifyReviewer, h1]
      have hent : htmlEntry u r = htmlSelfItem r := by
        simp [htmlEntry, h1]
      rw [hstep, ih]
      simp [List.filter_cons, hc, hent]
    · by_cases h2 : r ∈ u.teams
      · have hstep : htmlReviewerStep u (acc, os) r = (acc ++ [htmlTeamItem r], os) := by
          simp [htmlReviewerStep, h1, h2]
        have hc : classifyReviewer u r = ReviewerBucket.team := by
          simp [classifyReviewer, h1, h2]
        rw [hstep, ih]
        simp [List.filter_cons, hc, htmlEntry, h1]
      · have hstep : htmlReviewerStep u (acc, os) r
            = (acc, os ++ [rpartitionAfterSlash r]) := by
          simp [htmlReviewerStep, h1, h2]
        have hc : classifyReviewer u r = ReviewerBucket.other := by
          simp [classifyReviewer, h1, h2]
        rw [hstep, ih]
        simp [List.filter_cons, hc]

/-- C6: each requested reviewer falls in exactly one of the three buckets
(self, own team, other); both rendered reviewer lists consist of the self
and own-team entries in encounter order, followed by a single aggregate
"N others" entry present exactly when the other bucket is non-empty, with
N the number of reviewers classified other. -/
theorem c6_reviewer_partition (u : User) (revs : List String) :
    (∀ r, (classifyReviewer u r = ReviewerBucket.self ↔ r = u.login)
      ∧ (classifyReviewer u r = ReviewerBucket.team ↔ (r ≠ u.login ∧ r ∈ u.teams))
      ∧ (classifyReviewer u r = ReviewerBucket.other ↔ (r ≠ u.login ∧ r ∉ u.teams)))
    ∧ consoleReviewers u revs
        = (revs.filter
            (fun r => classifyReviewer u r != ReviewerBucket.other)).map (consoleEntry u)
          ++ (if (revs.filter
                (fun r => classifyReviewer u r == ReviewerBucket.other)).length ≠ 0
              then [toString (revs.filter
                (fun r => classifyReviewer u r == ReviewerBucket.other)).length ++ " others"]
              else [])
    ∧ htmlReviewerItems u revs
        = (revs.filter
            (fun r => classifyReviewer u r != ReviewerBucket.other)).map (htmlEntry u)
          ++ (if (revs.filter (fun r => classifyReviewer u r == ReviewerBucket.other)) ≠ []
              then [htmlOthersItem ((revs.filter
                (fun r => classifyReviewer u r == ReviewerBucket.other)).map
                  rpartitionAfterSlash)]
              else []) := by
  refine ⟨?_, ?_, ?_⟩
  · intro r
    unfold classifyReviewer
    split_ifs with h1 h2 <;> simp_all
  · unfold consoleReviewers
    rw [consoleReviewers_foldl]
    simp only [List.nil_append, Nat.zero_add]
    by_cases h : (revs.filter
        (fun r => classifyReviewer u r == ReviewerBucket.other)).length ≠ 0 <;>
      simp [h]
  · unfold htmlReviewerItems
    rw [htmlReviewerItems_foldl]
    simp only [List.nil_append]
    by_cases h : (revs.filter
        (fun r => classifyReviewer u r == ReviewerBucket.other)) = [] <;>
      simp [h, htmlOthersItem]

theorem afterFirstSlash_append (org slug : List Char) (h : '/' ∉ org) :
    afterFirstSlash (org ++ '/' :: slug) = some slug := by
  induction org with
  | nil => simp [afterFirstSlash]
  | cons c cs ih =>
    have hc : c ≠ '/' := fun he => h (he ▸ List.mem_cons_self c cs)
    have h' : '/' ∉ cs := fun hm => h (List.mem_cons_of_mem _ hm)
    rw [List.cons_append,
      show afterFirstSlash (c :: (cs ++ '/' :: slug))
        = if c = '/' then some (cs ++ '/' :: slug) else afterFirstSlash (cs ++ '/' :: slug)
        from rfl,
      if_neg hc]
    exact ih h'

theorem partitionAfterSlash_strips (org slug : String) (h : '/' ∉ org.data) :
    partitionAfterSlash (org ++ "/" ++ slug) = slug := by
  unfold partitionAfterSlash
  rw [show (org ++ "/" ++ slug).data = org.data ++ '/' :: slug.data from by
    simp [String.data_append], afterFirstSlash_append org.data slug.data h]

/-- C9 counterexample: for a reviewer that is a team of the viewing user,
the HTML renderer emits only the bare slug inside a plain list item; the
org-qualified identifier (and any title attribute carrying it) is absent
from the entry. -/
theorem c9_cex_html_team_entry_untitled :
    htmlReviewerItems ⟨"456", "me", ["org/team"]⟩ ["org/team"]
      = ["<li class=\"list-group-item\">team</li>"]
    ∧ ¬ List.IsInfix ("org/team").data ("<li class=\"list-group-item\">team</li>").data := by
  exact ⟨rfl, by decide⟩

/-- C9 (amended): a reviewer that is a team the viewing user belongs to is
rendered by the console loop as only the slug after the org prefix, and by
the HTML loop as a plain list item containing only that slug (no
tooltip/title attribute carrying the org-qualified identifier); for any
org with no slash, the slug of org/slug is exactly slug. -/
theorem c9_team_rendering (u : User) (r : String) (acc : List String × Nat)
    (acc2 : List String × List String) (h1 : r ≠ u.login) (h2 : r ∈ u.teams) :
    consoleReviewerStep u acc r = (acc.1 ++ [partitionAfterSlash r], acc.2)
    ∧ htmlReviewerStep u acc2 r
        = (acc2.1 ++ ["<li class=\"list-group-item\">" ++ partitionAfterSlash r ++ "</li>"],
           acc2.2)
    ∧ ∀ org slug : String, '/' ∉ org.data →
        partitionAfterSlash (org ++ "/" ++ slug) = slug := by
  refine ⟨by simp [consoleReviewerStep, h1, h2], ?_, ?_⟩
  · simp [htmlReviewerStep, htmlTeamItem, h1, h2]
  · intro org slug h
    exact partitionAfterSlash_strips org slug h

/-- Witness for C9 at the concrete team reviewer "org/team". -/
theorem c9_team_rendering_wit :
    ("org/team" : String) ≠ "me" ∧ ("org/team" : String) ∈ ["org/team"]
    ∧ consoleReviewerStep ⟨"456", "me", ["org/team"]⟩ ([], 0) "org/team" = (["team"], 0)
    ∧ partitionAfterSlash ("org" ++ "/" ++ "team") = "team" := by
  have h := c9_team_rendering ⟨"456", "me", ["org/team"]⟩ "org/team" ([], 0) ([], [])
    (by decide) (by decide)
  refine ⟨by decide, by decide, ?_, h.2.2 "org" "team" (by decide)⟩
  rw [h.1]
  rfl

theorem except_ok_bind {α β : Type} (a : α) (f : α → Except String β) :
    (Except.ok a : Except String α) >>= f = f a := rfl

theorem except_pure {α : Type} (a : α) : (pure a : Except String α) = Except.ok a := rfl

theorem except_error_bind {α β : Type} (e : String) (f : α → Except String β) :
    (Except.error e : Except String α) >>= f = Except.error e := rfl

theorem except_map_ok {α β : Type} (f : α → β) (a : α) :
    (Except.ok a : Except String α).map f = Except.ok (f a) := rfl

/-- C8: the status glyph of each formatter follows the priority table,
first matching row winning: check marker for OPEN and CLEAN, fast-forward
marker for OPEN and AUTO_MERGE, none for any other open PR, a dimmed
marker for DRAFT, a distinct merged marker for MERGED and a distinct
closed marker for CLOSED - and the icon list never carries more than one
status glyph. -/
theorem c8_status_glyph (n : Notification) (st : PRStatus)
    (h : n.pr.status = Except.ok st) :
    (∀ ms : PRMergeStatus, st = PRStatus.OPEN → n.pr.merge_status = Except.ok ms →
      consoleStatusGlyph n = Except.ok
        (if ms = PRMergeStatus.CLEAN then "\x1b[92m\x1b[0m "
         else if ms = PRMergeStatus.AUTO_MERGE then "⏩"
         else "")
      ∧ htmlIcons n = Except.ok
          ((if ms = PRMergeStatus.CLEAN then [htmlCheckIcon]
            else if ms = PRMergeStatus.AUTO_MERGE then [htmlFastForwardIcon]
            else [])
           ++ (if n.pr.author = n.user.login then [htmlAuthorIcon] else [])))
    ∧ (st = PRStatus.DRAFT → consoleStatusGlyph n = Except.ok "\x1b[39;2m"
        ∧ htmlIcons n = Except.ok
            ([htmlDraftIcon]
              ++ (if n.pr.author = n.user.login then [htmlAuthorIcon] else [])))
    ∧ (st = PRStatus.MERGED → consoleStatusGlyph n = Except.ok "\x1b[35m[M]\x1b[39;2m"
        ∧ htmlIcons n = Except.ok
            ([htmlMergedIcon]
              ++ (if n.pr.author = n.user.login then [htmlAuthorIcon] else [])))
    ∧ (st = PRStatus.CLOSED → consoleStatusGlyph n = Except.ok "\x1b[31m[C]\x1b[39;2m"
        ∧ htmlIcons n = Except.ok
            ([htmlClosedIcon]
              ++ (if n.pr.author = n.user.login then [htmlAuthorIcon] else []))) := by
  cases st with
  | OPEN =>
    refine ⟨?_, by simp, by simp, by simp⟩
    intro ms _ hms
    unfold consoleStatusGlyph htmlIcons
    rw [h]
    cases ms <;> simp [except_ok_bind, except_pure, hms]
  | DRAFT =>
    refine ⟨by simp, ?_, by simp, by simp⟩
    intro _
    unfold consoleStatusGlyph htmlIcons
    rw [h]
    simp [except_ok_bind, except_pure]
  | MERGED =>
    refine ⟨by simp, by simp, ?_, by simp⟩
    intro _
    unfold consoleStatusGlyph htmlIcons
    rw [h]
    simp [except_ok_bind, except_pure]
  | CLOSED =>
    refine ⟨by simp, by simp, by simp, ?_⟩
    intro _
    unfold consoleStatusGlyph htmlIcons
    rw [h]
    simp [except_ok_bind, except_pure]

/-- Witness for C8 at the sample open clean PR. -/
theorem c8_status_glyph_wit :
    sampleNotification.pr.status = Except.ok PRStatus.OPEN
    ∧ consoleStatusGlyph sampleNotification = Except.ok "\x1b[92m\x1b[0m "
    ∧ htmlIcons sampleNotification = Except.ok [htmlCheckIcon] := by
  have h := c8_status_glyph sampleNotification PRStatus.OPEN rfl
  have h1 := h.1 PRMergeStatus.CLEAN rfl rfl
  exact ⟨rfl, h1.1, h1.2⟩

theorem extractLogins_map (ls : List String) :
    extractLogins (ls.map (fun l => JVal.obj [("login", JVal.str l)])) = Except.ok ls := by
  induction ls with
  | nil => rfl
  | cons l rest ih =>
    rw [List.map_cons,
      show extractLogins (JVal.obj [("login", JVal.str l)]
          :: rest.map (fun l => JVal.obj [("login", JVal.str l)]))
        = (extractLogins (rest.map (fun l => JVal.obj [("login", JVal.str l)]))
            >>= fun ls => Except.ok (l :: ls)) from rfl,
      ih, except_ok_bind]

theorem extractSlugs_map (ss : List String) :
    extractSlugs (ss.map (fun s => JVal.obj [("slug", JVal.str s)])) = Except.ok ss := by
  induction ss with
  | nil => rfl
  | cons s rest ih =>
    rw [List.map_cons,
      show extractSlugs (JVal.obj [("slug", JVal.str s)]
          :: rest.map (fun s => JVal.obj [("slug", JVal.str s)]))
        = (extractSlugs (rest.map (fun s => JVal.obj [("slug", JVal.str s)]))
            >>= fun ss => Except.ok (s :: ss)) from rfl,
      ih, except_ok_bind]

theorem from_json_mkPayload (p : Payload) (am : JVal) :
    PR.from_json (mkPayload p (some am)) = Except.ok (payloadPR p am) := by
  unfold PR.from_json mkPayload payloadPR
  simp [JVal.lookup, lookupField, JVal.getStr, JVal.getBool, JVal.getInt, JVal.getArr,
    except_ok_bind, except_pure, extractLogins_map, extractSlugs_map]

/-- C7: a well-formed payload normalizes to a PR whose requested_reviewers
list is exactly the individually requested reviewers' logins in source
order, followed by the requested teams rendered as owner-login/slug, in
source order after all individuals. -/
theorem c7_requested_reviewers_order (p : Payload) (am : JVal) :
    (PR.from_json (mkPayload p (some am))).map PR.requested_reviewers
      = Except.ok (p.logins ++ p.slugs.map (fun s => p.owner ++ "/" ++ s)) := by
  rw [from_json_mkPayload]
  rfl

theorem from_json_mkPayload_missing_auto_merge (p : Payload) :
    PR.from_json (mkPayload p none) = Except.error "KeyError: auto_merge" := by
  unfold PR.from_json mkPayload
  simp [JVal.lookup, lookupField, JVal.getStr, JVal.getBool, JVal.getInt, JVal.getArr,
    except_ok_bind, except_error_bind]

/-- C10: the auto-merge field goes through Python truthiness - a payload
whose auto_merge key holds null (or any falsy value) constructs a PR with
auto_merge = false rather than failing; only actual absence of the key
makes construction fail (with the KeyError). -/
theorem c10_auto_merge_truthiness (p : Payload) (v : JVal) (h : v.truthy = false) :
    (PR.from_json (mkPayload p (some v))).map PR.auto_merge = Except.ok false
    ∧ PR.from_json (mkPayload p none) = Except.error "KeyError: auto_merge" := by
  constructor
  · rw [from_json_mkPayload]
    simp [payloadPR, h, except_map_ok]
  · exact from_json_mkPayload_missing_auto_merge p

/-- Witness for C10: the sample payload with a null auto_merge. -/
theorem c10_auto_merge_truthiness_wit :
    JVal.truthy JVal.null = false
    ∧ (PR.from_json (mkPayload samplePayload (some JVal.null))).map PR.auto_merge
        = Except.ok false
    ∧ PR.from_json (mkPayload samplePayload none) = Except.error "KeyError: auto_merge" := by
  have h := c10_auto_merge_truthiness samplePayload JVal.null rfl
  exact ⟨rfl, h.1, h.2⟩

end GhNotifs
